import Mathlib

/-!
Shallow embedding of the directory-scanning routines of the file_processor
library (src/src/lib.rs) and proofs about them.

Modelling choices, all read directly off the Rust source:

* A directory value (Rust PathBuf) is modelled by what the three functions
  observe about it: the result of to_str (an optional string) and the result
  of exists (a boolean).  The enumeration produced by read_dir is passed as a
  separate argument: some entries when read_dir succeeds, none when it fails
  (in which case the Rust code calls unwrap on an Err and panics).
* A directory entry result (Rust io result of DirEntry) is either err (the
  entry could not be inspected) or ok with: the result of
  file_name().to_str() (none models invalid unicode), the result of
  path().extension() composed with to_str (none = no extension component,
  some none = extension not representable as text, some (some s) = text s),
  and an abstract identifier for path() used to track which paths the
  caller-supplied process function receives.
* The caller-supplied transform of find_and_then_and_load composed with
  to_str is modelled as processStr : Nat -> Option String (none models a
  return path whose to_str fails, on which the Rust code panics via expect),
  and the load_bytes macro as load : String -> Option (List Nat) (none
  models a read failure, on which load_bytes panics).
* Outcome is the Rust Result enriched with a fatal constructor that records
  a panic; a Rust panic message is abbreviated to a fixed string.
* Rust Vec::remove(i) panics when i >= len; this is modelled explicitly
  (List.eraseIdx alone would silently do nothing).
-/

namespace FileProcessor

/-- What the scanning functions observe of the directory argument:
directory.to_str() and directory.exists(). -/
structure PathModel where
  toStr : Option String
  existsb : Bool
  deriving DecidableEq, Repr

/-- One successfully obtained directory entry, as observed by the code:
file_name().to_str(), path().extension() then to_str(), and an abstract
identifier for path(). -/
structure DirEntry where
  fileNameStr : Option String
  extension : Option (Option String)
  pathId : Nat
  deriving DecidableEq, Repr

/-- One element of the read_dir enumeration: Ok(entry) or an error. -/
inductive EntryResult where
  | ok (e : DirEntry)
  | err
  deriving DecidableEq, Repr

/-- The error enumeration of the library (lib.rs lines 238-244). -/
inductive Error where
  | InvalidUnicodeData
  | NullDirectory
  | CouldNotOpenEntry
  | DirectoryDoesNotExist (dir : PathModel)
  | MissingFiles (indexes : List Nat)
  deriving DecidableEq, Repr

/-- A call result: Ok value, a typed Error, or a panic (fatal). -/
inductive Outcome (α : Type) where
  | ok (val : α)
  | err (e : Error)
  | fatal (msg : String)
  deriving DecidableEq, Repr

/-- The entry loop of find_and_then_and_load (lib.rs lines 52-73) together
with the final count check (lines 75-79).  State threaded exactly as in the
source: count, the indexes vector (initially the full range), and the
binaries accumulator.  On a match at filenames-position i the code pushes
the loaded bytes, increments count and calls indexes.remove(i), which
removes by position and panics when i is out of bounds. -/
def nameLoop (processStr : Nat → Option String) (load : String → Option (List Nat))
    (filenames : List String) (ignore_fail : Bool) :
    List EntryResult → Nat → List Nat → List (List Nat) → Outcome (List (List Nat))
  | [], count, indexes, binaries =>
      if count = filenames.length then .ok binaries else .err (.MissingFiles indexes)
  | .err :: rest, count, indexes, binaries =>
      if !ignore_fail then .err .CouldNotOpenEntry
      else nameLoop processStr load filenames ignore_fail rest count indexes binaries
  | .ok e :: rest, count, indexes, binaries =>
      match e.fileNameStr with
      | none =>
          if !ignore_fail then .err .InvalidUnicodeData
          else nameLoop processStr load filenames ignore_fail rest count indexes binaries
      | some name =>
          match filenames.findIdx? (fun s => s == name) with
          | none => nameLoop processStr load filenames ignore_fail rest count indexes binaries
          | some i =>
              match processStr e.pathId with
              | none => .fatal "Return path is incorrect"
              | some newPath =>
                  match load newPath with
                  | none => .fatal "could not load file"
                  | some bytes =>
                      if i < indexes.length then
                        nameLoop processStr load filenames ignore_fail rest (count + 1)
                          (indexes.eraseIdx i) (binaries ++ [bytes])
                      else .fatal "removal index out of bounds"

/-- find_and_then_and_load (lib.rs lines 39-83).  The listing argument is
the result of read_dir: none models a read_dir error, unwrapped into a
panic by the source. -/
def find_and_then_and_load (directory : PathModel) (listing : Option (List EntryResult))
    (filenames : List String) (processStr : Nat → Option String)
    (load : String → Option (List Nat)) (ignore_fail : Bool) :
    Outcome (List (List Nat)) :=
  match directory.toStr with
  | some _ =>
      if !directory.existsb then
        .err (.DirectoryDoesNotExist directory)
      else
        match listing with
        | none => .fatal "read_dir failed"
        | some entries =>
            nameLoop processStr load filenames ignore_fail entries 0
              (List.range filenames.length) []
  | none => .err .NullDirectory

/-- The entry loop of find_and_then (lib.rs lines 166-187) with the final
count check (lines 189-193).  Identical to nameLoop except that the
transform is invoked purely for side effect, so no loading can occur. -/
def nameLoopApply (filenames : List String) (ignore_fail : Bool) :
    List EntryResult → Nat → List Nat → Outcome Unit
  | [], count, indexes =>
      if count = filenames.length then .ok () else .err (.MissingFiles indexes)
  | .err :: rest, count, indexes =>
      if !ignore_fail then .err .CouldNotOpenEntry
      else nameLoopApply filenames ignore_fail rest count indexes
  | .ok e :: rest, count, indexes =>
      match e.fileNameStr with
      | none =>
          if !ignore_fail then .err .InvalidUnicodeData
          else nameLoopApply filenames ignore_fail rest count indexes
      | some name =>
          match filenames.findIdx? (fun s => s == name) with
          | none => nameLoopApply filenames ignore_fail rest count indexes
          | some i =>
              if i < indexes.length then
                nameLoopApply filenames ignore_fail rest (count + 1) (indexes.eraseIdx i)
              else .fatal "removal index out of bounds"

/-- find_and_then (lib.rs lines 155-197). -/
def find_and_then (directory : PathModel) (listing : Option (List EntryResult))
    (filenames : List String) (ignore_fail : Bool) : Outcome Unit :=
  match directory.toStr with
  | some _ =>
      if !directory.existsb then
        .err (.DirectoryDoesNotExist directory)
      else
        match listing with
        | none => .fatal "read_dir failed"
        | some entries =>
            nameLoopApply filenames ignore_fail entries 0 (List.range filenames.length)
  | none => .err .NullDirectory

/-- The entry loop of find_by_extension_and_then (lib.rs lines 109-128).
The accumulator records, in scan order, the path of every entry handed to
the process function, making the side effects of the loop observable. -/
def extLoop (extensions : List String) (ignore_fail : Bool) :
    List EntryResult → List Nat → Outcome (List Nat)
  | [], processed => .ok processed
  | .err :: rest, processed =>
      if !ignore_fail then .err .CouldNotOpenEntry
      else extLoop extensions ignore_fail rest processed
  | .ok e :: rest, processed =>
      match e.extension with
      | none => extLoop extensions ignore_fail rest processed
      | some none => extLoop extensions ignore_fail rest processed
      | some (some ext) =>
          if extensions.contains ext then
            extLoop extensions ignore_fail rest (processed ++ [e.pathId])
          else
            extLoop extensions ignore_fail rest processed

/-- find_by_extension_and_then (lib.rs lines 102-134), instrumented to
return the trace of paths given to the process function. -/
def find_by_extension_trace (directory : PathModel) (listing : Option (List EntryResult))
    (extensions : List String) (ignore_fail : Bool) : Outcome (List Nat) :=
  match directory.toStr with
  | some _ =>
      if !directory.existsb then
        .err (.DirectoryDoesNotExist directory)
      else
        match listing with
        | none => .fatal "read_dir failed"
        | some entries => extLoop extensions ignore_fail entries []
  | none => .err .NullDirectory

/-- Forget the success payload of an outcome, keeping errors and panics. -/
def eraseVal {α : Type} : Outcome α → Outcome Unit
  | .ok _ => .ok ()
  | .err e => .err e
  | .fatal m => .fatal m

/-- find_by_extension_and_then as the source declares it, returning unit on
success: the trace-instrumented run with the trace forgotten. -/
def find_by_extension_and_then (directory : PathModel) (listing : Option (List EntryResult))
    (extensions : List String) (ignore_fail : Bool) : Outcome Unit :=
  eraseVal (find_by_extension_trace directory listing extensions ignore_fail)

/-- The entries for which the spec says the extension transform fires: Ok
entries with a present, text-representable extension that is an exact
member of the requested list (spec section 4, match predicate). -/
def extMatches (extensions : List String) : List EntryResult → List Nat
  | [] => []
  | .err :: rest => extMatches extensions rest
  | .ok e :: rest =>
      match e.extension with
      | some (some ext) =>
          if extensions.contains ext then e.pathId :: extMatches extensions rest
          else extMatches extensions rest
      | _ => extMatches extensions rest

/-- True exactly on the two suppressible entry-level errors. -/
def entryLevelErr {α : Type} : Outcome α → Bool
  | .err .CouldNotOpenEntry => true
  | .err .InvalidUnicodeData => true
  | _ => false

/-- True exactly on the missing-files error. -/
def isMissingErr {α : Type} : Outcome α → Bool
  | .err (.MissingFiles _) => true
  | _ => false

/-- An entry result that is readable and has a text-representable name. -/
def entryNameOk : EntryResult → Bool
  | .err => false
  | .ok e => e.fileNameStr.isSome

/-- With ignore_fail set, the name-and-load loop never produces an
entry-level error. -/
lemma nameLoop_true_no_entry_err (pstr : Nat → Option String)
    (load : String → Option (List Nat)) (fns : List String) :
    ∀ (entries : List EntryResult) (count : Nat) (idx : List Nat) (bins : List (List Nat)),
      entryLevelErr (nameLoop pstr load fns true entries count idx bins) = false := by
  intro entries
  induction entries with
  | nil =>
      intro count idx bins
      simp only [nameLoop]
      split <;> rfl
  | cons ent rest ih =>
      intro count idx bins
      cases ent with
      | err => exact ih count idx bins
      | ok e =>
          rcases e with ⟨fn, ext, pid⟩
          cases fn with
          | none => exact ih count idx bins
          | some name =>
              simp only [nameLoop]
              cases hf : fns.findIdx? (fun s => s == name) with
              | none => exact ih count idx bins
              | some i =>
                  cases hp : pstr pid with
                  | none => rfl
                  | some p =>
                      cases hl : load p with
                      | none =>
                          simp only [hl]
                          rfl
                      | some bytes =>
                          by_cases hi : i < idx.length
                          · simp only [hl, if_pos hi]
                            exact ih (count + 1) (idx.eraseIdx i) (bins ++ [bytes])
                          · simp only [hl, if_neg hi]
                            rfl

/-- With ignore_fail set, the apply-variant loop never produces an
entry-level error. -/
lemma nameLoopApply_true_no_entry_err (fns : List String) :
    ∀ (entries : List EntryResult) (count : Nat) (idx : List Nat),
      entryLevelErr (nameLoopApply fns true entries count idx) = false := by
  intro entries
  induction entries with
  | nil =>
      intro count idx
      simp only [nameLoopApply]
      split <;> rfl
  | cons ent rest ih =>
      intro count idx
      cases ent with
      | err => exact ih count idx
      | ok e =>
          rcases e with ⟨fn, ext, pid⟩
          cases fn with
          | none => exact ih count idx
          | some name =>
              simp only [nameLoopApply]
              cases hf : fns.findIdx? (fun s => s == name) with
              | none => exact ih count idx
              | some i =>
                  by_cases hi : i < idx.length
                  · simp only [if_pos hi]
                    exact ih (count + 1) (idx.eraseIdx i)
                  · simp only [if_neg hi]
                    rfl

/-- An outcome on which entryLevelErr is false is neither of the two
suppressible errors. -/
lemma ne_of_entryLevelErr_false {α : Type} {o : Outcome α}
    (h : entryLevelErr o = false) :
    o ≠ .err .CouldNotOpenEntry ∧ o ≠ .err .InvalidUnicodeData := by
  constructor <;> rintro rfl <;> exact Bool.noConfusion h

/-- With ignore_fail set, find_and_then_and_load never produces an
entry-level error. -/
lemma faal_true_no_entry_err (d : PathModel) (listing : Option (List EntryResult))
    (fns : List String) (pstr : Nat → Option String) (load : String → Option (List Nat)) :
    entryLevelErr (find_and_then_and_load d listing fns pstr load true) = false := by
  unfold find_and_then_and_load
  cases d.toStr with
  | none => rfl
  | some s =>
      cases hd : d.existsb with
      | false => rfl
      | true =>
          cases listing with
          | none => rfl
          | some entries => exact nameLoop_true_no_entry_err pstr load fns entries 0 _ []

/-- With ignore_fail set, find_and_then never produces an entry-level
error. -/
lemma fat_true_no_entry_err (d : PathModel) (listing : Option (List EntryResult))
    (fns : List String) :
    entryLevelErr (find_and_then d listing fns true) = false := by
  unfold find_and_then
  cases d.toStr with
  | none => rfl
  | some s =>
      cases hd : d.existsb with
      | false => rfl
      | true =>
          cases listing with
          | none => rfl
          | some entries => exact nameLoopApply_true_no_entry_err fns entries 0 _

/-- Claim C4: with ignoreFail set, the two name-based operations never
return CouldNotOpenEntry or InvalidUnicodeData, and an unreadable entry or
an entry with a non-representable name is skipped with the whole scan
state (count, pending indexes, accumulated binaries) unchanged. -/
theorem ignoreFail_suppresses_entry_errors :
    ∀ (d : PathModel) (listing : Option (List EntryResult)) (fns : List String)
      (pstr : Nat → Option String) (load : String → Option (List Nat)),
      find_and_then_and_load d listing fns pstr load true ≠ .err .CouldNotOpenEntry ∧
      find_and_then_and_load d listing fns pstr load true ≠ .err .InvalidUnicodeData ∧
      find_and_then d listing fns true ≠ .err .CouldNotOpenEntry ∧
      find_and_then d listing fns true ≠ .err .InvalidUnicodeData ∧
      (∀ (rest : List EntryResult) (count : Nat) (idx : List Nat) (bins : List (List Nat)),
        nameLoop pstr load fns true (.err :: rest) count idx bins
          = nameLoop pstr load fns true rest count idx bins) ∧
      (∀ (ext : Option (Option String)) (pid : Nat) (rest : List EntryResult)
          (count : Nat) (idx : List Nat) (bins : List (List Nat)),
        nameLoop pstr load fns true (.ok ⟨none, ext, pid⟩ :: rest) count idx bins
          = nameLoop pstr load fns true rest count idx bins) ∧
      (∀ (rest : List EntryResult) (count : Nat) (idx : List Nat),
        nameLoopApply fns true (.err :: rest) count idx
          = nameLoopApply fns true rest count idx) ∧
      (∀ (ext : Option (Option String)) (pid : Nat) (rest : List EntryResult)
          (count : Nat) (idx : List Nat),
        nameLoopApply fns true (.ok ⟨none, ext, pid⟩ :: rest) count idx
          = nameLoopApply fns true rest count idx) := by
  intro d listing fns pstr load
  obtain ⟨h1, h2⟩ := ne_of_entryLevelErr_false (faal_true_no_entry_err d listing fns pstr load)
  obtain ⟨h3, h4⟩ := ne_of_entryLevelErr_false (fat_true_no_entry_err d listing fns)
  exact ⟨h1, h2, h3, h4, fun _ _ _ _ => rfl, fun _ _ _ _ _ _ => rfl,
    fun _ _ _ => rfl, fun _ _ _ _ _ => rfl⟩

/-- Claim C4 witness: concrete instantiation, extracting the skip equation
for an unreadable entry. -/
theorem ignoreFail_suppresses_entry_errors_witness :
    nameLoopApply ["a"] true [.err] 0 [0] = nameLoopApply ["a"] true [] 0 [0] :=
  (ignoreFail_suppresses_entry_errors ⟨some "/d", true⟩ (some [.err]) ["a"]
    (fun _ => some "/p") (fun _ => some [7])).2.2.2.2.2.2.1 [] 0 [0]

/-- When transforming and loading always succeed, the load loop and the
apply loop agree step by step once the loaded payload is forgotten. -/
lemma nameLoop_eraseVal (pstr : Nat → Option String) (load : String → Option (List Nat))
    (fns : List String) (ig : Bool)
    (hp : ∀ p, (pstr p).isSome = true) (hl : ∀ s, (load s).isSome = true) :
    ∀ (entries : List EntryResult) (count : Nat) (idx : List Nat) (bins : List (List Nat)),
      eraseVal (nameLoop pstr load fns ig entries count idx bins)
        = nameLoopApply fns ig entries count idx := by
  intro entries
  induction entries with
  | nil =>
      intro count idx bins
      simp only [nameLoop, nameLoopApply]
      split <;> rfl
  | cons ent rest ih =>
      intro count idx bins
      cases ent with
      | err =>
          cases ig with
          | false => rfl
          | true => exact ih count idx bins
      | ok e =>
          rcases e with ⟨fn, ext, pid⟩
          cases fn with
          | none =>
              cases ig with
              | false => rfl
              | true => exact ih count idx bins
          | some name =>
              simp only [nameLoop, nameLoopApply]
              cases hf : fns.findIdx? (fun s => s == name) with
              | none => exact ih count idx bins
              | some i =>
                  have hp2 := hp pid
                  cases hpp : pstr pid with
                  | none => rw [hpp] at hp2; exact Bool.noConfusion hp2
                  | some p =>
                      have hl2 := hl p
                      cases hll : load p with
                      | none => rw [hll] at hl2; exact Bool.noConfusion hl2
                      | some bytes =>
                          by_cases hi : i < idx.length
                          · simp only [hll, if_pos hi]
                            exact ih (count + 1) (idx.eraseIdx i) (bins ++ [bytes])
                          · simp only [hll, if_neg hi]
                            rfl

/-- Claim C5: when every transformed path is representable and every load
succeeds, find_and_then behaves exactly as find_and_then_and_load with the
byte buffers forgotten: same matching, same consumption, same success or
failure, the same error value on failure, and the same panic on the
out-of-bounds removal. -/
theorem apply_variant_refines_load_variant :
    ∀ (d : PathModel) (listing : Option (List EntryResult)) (fns : List String)
      (pstr : Nat → Option String) (load : String → Option (List Nat)) (ig : Bool),
      (∀ p, (pstr p).isSome = true) → (∀ s, (load s).isSome = true) →
      eraseVal (find_and_then_and_load d listing fns pstr load ig)
        = find_and_then d listing fns ig := by
  intro d listing fns pstr load ig hp hl
  unfold find_and_then_and_load find_and_then
  cases d.toStr with
  | none => rfl
  | some s =>
      cases hd : d.existsb with
      | false => rfl
      | true =>
          cases listing with
          | none => rfl
          | some entries => exact nameLoop_eraseVal pstr load fns ig hp hl entries 0 _ []

/-- Claim C5 witness: concrete agreement of the two variants. -/
theorem apply_variant_refines_load_variant_witness :
    eraseVal (find_and_then_and_load ⟨some "/d", true⟩
        (some [.ok ⟨some "a", none, 0⟩, .err]) ["a", "b"]
        (fun _ => some "/p") (fun _ => some [7]) true)
      = find_and_then ⟨some "/d", true⟩ (some [.ok ⟨some "a", none, 0⟩, .err]) ["a", "b"] true :=
  apply_variant_refines_load_variant ⟨some "/d", true⟩ (some [.ok ⟨some "a", none, 0⟩, .err])
    ["a", "b"] (fun _ => some "/p") (fun _ => some [7]) true (fun _ => rfl) (fun _ => rfl)

/-- A completed extension scan has processed exactly the entries selected
by the match predicate, in scan order, after the already-accumulated
prefix. -/
lemma extLoop_ok_trace (exts : List String) (ig : Bool) :
    ∀ (entries : List EntryResult) (acc tr : List Nat),
      extLoop exts ig entries acc = .ok tr → tr = acc ++ extMatches exts entries := by
  intro entries
  induction entries with
  | nil =>
      intro acc tr h
      simp only [extLoop] at h
      injection h with h
      simp [extMatches, h]
  | cons ent rest ih =>
      intro acc tr h
      cases ent with
      | err =>
          cases ig with
          | false => exact Outcome.noConfusion h
          | true => exact ih acc tr h
      | ok e =>
          rcases e with ⟨fn, ext, pid⟩
          cases ext with
          | none => exact ih acc tr h
          | some o =>
              cases o with
              | none => exact ih acc tr h
              | some x =>
                  simp only [extLoop, extMatches] at h ⊢
                  cases hc : exts.contains x with
                  | false =>
                      rw [hc] at h
                      simp only [Bool.false_eq_true, if_false] at h ⊢
                      exact ih acc tr h
                  | true =>
                      rw [hc] at h
                      simp only [if_true] at h ⊢
                      rw [ih (acc ++ [pid]) tr h]
                      simp

/-- Claim C6: in a completed extension scan, the process function is
invoked exactly on the entries that are readable, have an extension
component whose text conversion succeeds, and whose extension text is an
exact, case-sensitive member of the requested list, in scan order. -/
theorem extension_match_trace_exact :
    ∀ (d : PathModel) (entries : List EntryResult) (exts : List String) (ig : Bool)
      (tr : List Nat),
      find_by_extension_trace d (some entries) exts ig = .ok tr →
      tr = extMatches exts entries := by
  intro d entries exts ig tr h
  rcases d with ⟨ts, ex⟩
  cases ts with
  | none => exact Outcome.noConfusion h
  | some s =>
      cases ex with
      | false => exact Outcome.noConfusion h
      | true => simpa using extLoop_ok_trace exts ig entries [] tr h

/-- Claim C6 witness: a.txt and b.txt are processed, c.log is not, and the
differently-cased a.TXT does not match the requested extension txt. -/
theorem extension_match_trace_exact_witness :
    ([0, 1] : List Nat) = extMatches ["txt"]
      [.ok ⟨some "a.txt", some (some "txt"), 0⟩, .ok ⟨some "b.txt", some (some "txt"), 1⟩,
       .ok ⟨some "c.log", some (some "log"), 2⟩, .ok ⟨some "a.TXT", some (some "TXT"), 3⟩] :=
  extension_match_trace_exact ⟨some "/d", true⟩
    [.ok ⟨some "a.txt", some (some "txt"), 0⟩, .ok ⟨some "b.txt", some (some "txt"), 1⟩,
     .ok ⟨some "c.log", some (some "log"), 2⟩, .ok ⟨some "a.TXT", some (some "TXT"), 3⟩]
    ["txt"] false [0, 1] rfl

/-- The extension loop never produces a missing-files error. -/
lemma extLoop_not_missing (exts : List String) (ig : Bool) :
    ∀ (entries : List EntryResult) (acc : List Nat),
      isMissingErr (extLoop exts ig entries acc) = false := by
  intro entries
  induction entries with
  | nil => intro acc; rfl
  | cons ent rest ih =>
      intro acc
      cases ent with
      | err =>
          cases ig with
          | false => rfl
          | true => exact ih acc
      | ok e =>
          rcases e with ⟨fn, ext, pid⟩
          cases ext with
          | none => exact ih acc
          | some o =>
              cases o with
              | none => exact ih acc
              | some x =>
                  simp only [extLoop]
                  cases hc : exts.contains x with
                  | false => exact ih acc
                  | true => exact ih (acc ++ [pid])

/-- Forgetting the payload does not change whether the outcome is the
missing-files error. -/
lemma eraseVal_isMissing {α : Type} (o : Outcome α) :
    isMissingErr (eraseVal o) = isMissingErr o := by
  cases o with
  | ok v => rfl
  | err e => cases e <;> rfl
  | fatal m => rfl

/-- If every entry is readable, or ignore_fail is set, the extension loop
completes with a success value. -/
lemma extLoop_ok_of (exts : List String) (ig : Bool) :
    ∀ (entries : List EntryResult) (acc : List Nat),
      (∀ ent ∈ entries, ig = true ∨ ent ≠ .err) →
      ∃ tr, extLoop exts ig entries acc = .ok tr := by
  intro entries
  induction entries with
  | nil => intro acc _; exact ⟨acc, rfl⟩
  | cons ent rest ih =>
      intro acc h
      have hh := h ent (List.mem_cons_self ent rest)
      have ht : ∀ x ∈ rest, ig = true ∨ x ≠ .err :=
        fun x hx => h x (List.mem_cons_of_mem _ hx)
      cases ent with
      | err =>
          rcases hh with hig | hne
          · subst hig
            exact ih acc ht
          · exact absurd rfl hne
      | ok e =>
          rcases e with ⟨fn, ext, pid⟩
          cases ext with
          | none => exact ih acc ht
          | some o =>
              cases o with
              | none => exact ih acc ht
              | some x =>
                  simp only [extLoop]
                  cases hc : exts.contains x with
                  | false => exact ih acc ht
                  | true => exact ih (acc ++ [pid]) ht

/-- Claim C7: find_by_extension_and_then never returns the missing-files
error, and it returns success whenever the directory is representable and
exists, the listing is obtained, and every entry is readable or
ignore_fail is set, however many entries matched. -/
theorem extension_scan_never_missing_files :
    ∀ (d : PathModel) (listing : Option (List EntryResult)) (exts : List String) (ig : Bool),
      (∀ idxs : List Nat,
        find_by_extension_and_then d listing exts ig ≠ .err (.MissingFiles idxs)) ∧
      (∀ (s : String) (entries : List EntryResult),
        d.toStr = some s → d.existsb = true → listing = some entries →
        (∀ ent ∈ entries, ig = true ∨ ent ≠ .err) →
        find_by_extension_and_then d listing exts ig = .ok ()) := by
  intro d listing exts ig
  constructor
  · intro idxs h
    have hm : isMissingErr (find_by_extension_and_then d listing exts ig) = false := by
      unfold find_by_extension_and_then
      rw [eraseVal_isMissing]
      unfold find_by_extension_trace
      cases d.toStr with
      | none => rfl
      | some s =>
          cases hd : d.existsb with
          | false => rfl
          | true =>
              cases listing with
              | none => rfl
              | some entries => exact extLoop_not_missing exts ig entries []
    rw [h] at hm
    exact Bool.noConfusion hm
  · intro s entries hs he hl hent
    obtain ⟨tr, htr⟩ := extLoop_ok_of exts ig entries [] hent
    unfold find_by_extension_and_then find_by_extension_trace
    rw [hs, he, hl]
    show eraseVal (extLoop exts ig entries []) = .ok ()
    rw [htr]
    rfl

/-- Claim C7 witness: a directory with no matching entry still succeeds. -/
theorem extension_scan_never_missing_files_witness :
    find_by_extension_and_then ⟨some "/d", true⟩
      (some [.ok ⟨some "c.log", some (some "log"), 2⟩]) ["txt"] false = .ok () :=
  (extension_scan_never_missing_files ⟨some "/d", true⟩
    (some [.ok ⟨some "c.log", some (some "log"), 2⟩]) ["txt"] false).2 "/d"
    [.ok ⟨some "c.log", some (some "log"), 2⟩] rfl rfl rfl (by decide)

/-- With an empty request list the name-and-load loop returns its
accumulator as soon as no entry can abort the scan. -/
lemma nameLoop_empty_names (pstr : Nat → Option String) (load : String → Option (List Nat))
    (ig : Bool) :
    ∀ (entries : List EntryResult) (idx : List Nat) (bins : List (List Nat)),
      (∀ ent ∈ entries, ig = true ∨ entryNameOk ent = true) →
      nameLoop pstr load [] ig entries 0 idx bins = .ok bins := by
  intro entries
  induction entries with
  | nil => intro idx bins _; rfl
  | cons ent rest ih =>
      intro idx bins h
      have hh := h ent (List.mem_cons_self ent rest)
      have ht : ∀ x ∈ rest, ig = true ∨ entryNameOk x = true :=
        fun x hx => h x (List.mem_cons_of_mem _ hx)
      cases ent with
      | err =>
          rcases hh with hig | hok
          · subst hig
            exact ih idx bins ht
          · exact Bool.noConfusion hok
      | ok e =>
          rcases e with ⟨fn, ext, pid⟩
          cases fn with
          | none =>
              rcases hh with hig | hok
              · subst hig
                exact ih idx bins ht
              · exact Bool.noConfusion hok
          | some name => exact ih idx bins ht

/-- With an empty request list the apply loop succeeds as soon as no entry
can abort the scan. -/
lemma nameLoopApply_empty_names (ig : Bool) :
    ∀ (entries : List EntryResult) (idx : List Nat),
      (∀ ent ∈ entries, ig = true ∨ entryNameOk ent = true) →
      nameLoopApply [] ig entries 0 idx = .ok () := by
  intro entries
  induction entries with
  | nil => intro idx _; rfl
  | cons ent rest ih =>
      intro idx h
      have hh := h ent (List.mem_cons_self ent rest)
      have ht : ∀ x ∈ rest, ig = true ∨ entryNameOk x = true :=
        fun x hx => h x (List.mem_cons_of_mem _ hx)
      cases ent with
      | err =>
          rcases hh with hig | hok
          · subst hig
            exact ih idx ht
          · exact Bool.noConfusion hok
      | ok e =>
          rcases e with ⟨fn, ext, pid⟩
          cases fn with
          | none =>
              rcases hh with hig | hok
              · subst hig
                exact ih idx ht
              · exact Bool.noConfusion hok
          | some name => exact ih idx ht

/-- Claim C8, counterexample: an empty request list does not succeed for
every directory content with every flag value.  An unreadable entry with
ignore_fail unset aborts the scan with CouldNotOpenEntry instead of
returning the empty result. -/
theorem empty_request_can_fail_on_unreadable_entry :
    find_and_then_and_load ⟨some "/d", true⟩ (some [.err]) []
      (fun _ => some "/p") (fun _ => some [7]) false = .err .CouldNotOpenEntry ∧
    Outcome.err Error.CouldNotOpenEntry ≠ Outcome.ok ([] : List (List Nat)) :=
  ⟨rfl, by decide⟩

/-- Claim C8, amended: for every existing, representable directory whose
listing is obtained, an empty requested-name list makes
find_and_then_and_load return the empty buffer list and find_and_then
return success, provided ignore_fail is set or every entry is readable
with a representable name. -/
theorem empty_request_succeeds :
    ∀ (d : PathModel) (s : String) (entries : List EntryResult)
      (pstr : Nat → Option String) (load : String → Option (List Nat)) (ig : Bool),
      d.toStr = some s → d.existsb = true →
      (∀ ent ∈ entries, ig = true ∨ entryNameOk ent = true) →
      find_and_then_and_load d (some entries) [] pstr load ig = .ok [] ∧
      find_and_then d (some entries) [] ig = .ok () := by
  intro d s entries pstr load ig hs he hent
  unfold find_and_then_and_load find_and_then
  rw [hs, he]
  exact ⟨nameLoop_empty_names pstr load ig entries _ [] hent,
    nameLoopApply_empty_names ig entries _ hent⟩

/-- Claim C8 witness: empty request list over a directory with an
unreadable entry and ignore_fail set. -/
theorem empty_request_succeeds_witness :
    find_and_then ⟨some "/d", true⟩ (some [.err]) [] true = .ok () :=
  (empty_request_succeeds ⟨some "/d", true⟩ "/d" [.err] (fun _ => some "/p")
    (fun _ => some [7]) true rfl rfl (by decide)).2

/-- Claim C1: the round-trip property fails in the code.  With the three
distinct names a, b, c all present as readable entries, enumerated in the
order a, b, c, the third match calls indexes.remove(2) on a vector of
length 1 (remove removes by position, not by value), so the call panics
instead of returning three byte buffers. -/
theorem loadAll_distinct_names_panics :
    find_and_then_and_load ⟨some "/d", true⟩
      (some [.ok ⟨some "a", none, 0⟩, .ok ⟨some "b", none, 1⟩, .ok ⟨some "c", none, 2⟩])
      ["a", "b", "c"] (fun _ => some "/p") (fun _ => some [7]) false
      = .fatal "removal index out of bounds" := by rfl

/-- Claim C2: the pending-set invariant fails in the code.  With requested
names a, b, c and a directory holding exactly a and b, the second match
(name b, filenames-index 1) calls indexes.remove(1) on the vector [1, 2],
deleting the value 2 by position, so the scan ends with MissingFiles [1]
although the unmatched name is c at index 2. -/
theorem missing_indices_payload_wrong :
    find_and_then ⟨some "/d", true⟩
      (some [.ok ⟨some "a", none, 0⟩, .ok ⟨some "b", none, 1⟩])
      ["a", "b", "c"] false
      = .err (.MissingFiles [1]) ∧
    Error.MissingFiles [1] ≠ Error.MissingFiles [2] := ⟨rfl, by decide⟩

/-- Claim C3, counterexample: a directory path that is not representable as
text and does not exist yields NullDirectory, not DirectoryDoesNotExist,
because to_str is matched before the existence check. -/
theorem nonrepresentable_missing_dir_gives_nullDirectory :
    find_and_then ⟨none, false⟩ none ["a"] false = .err .NullDirectory ∧
    Error.NullDirectory ≠ Error.DirectoryDoesNotExist ⟨none, false⟩ := ⟨rfl, by decide⟩

/-- Claim C3, amended: for every directory path that is representable as
text and does not exist, all three operations return DirectoryDoesNotExist
carrying the path, for every listing (so before examining any entry) and
every value of the other arguments. -/
theorem directory_missing_checked_eagerly :
    ∀ (d : PathModel) (s : String) (listing : Option (List EntryResult))
      (fns exts : List String) (pstr : Nat → Option String)
      (load : String → Option (List Nat)) (ig : Bool),
      d.toStr = some s → d.existsb = false →
      find_and_then_and_load d listing fns pstr load ig = .err (.DirectoryDoesNotExist d) ∧
      find_by_extension_and_then d listing exts ig = .err (.DirectoryDoesNotExist d) ∧
      find_and_then d listing fns ig = .err (.DirectoryDoesNotExist d) := by
  intro d s listing fns exts pstr load ig hs he
  unfold find_and_then_and_load find_by_extension_and_then find_by_extension_trace
    find_and_then eraseVal
  rw [hs, he]
  exact ⟨rfl, rfl, rfl⟩

/-- Claim C3 witness: instantiation at a concrete nonexistent directory. -/
theorem directory_missing_checked_eagerly_witness :
    find_and_then ⟨some "/d", false⟩ none ["a"] false
      = .err (.DirectoryDoesNotExist ⟨some "/d", false⟩) :=
  (directory_missing_checked_eagerly ⟨some "/d", false⟩ "/d" none ["a"] []
    (fun _ => some "/p") (fun _ => some [7]) false rfl rfl).2.2

/-- Claim C9: in find_and_then_and_load, when an entry matches a requested
name and the transform returns a path that is not representable as text,
the call ends in the panic of expect, never in a value of the error
enumeration. -/
theorem invalid_transform_path_panics :
    ∀ (d : PathModel) (s : String) (e : DirEntry) (rest : List EntryResult)
      (name : String) (i : Nat) (fns : List String) (pstr : Nat → Option String)
      (load : String → Option (List Nat)) (ig : Bool),
      d.toStr = some s → d.existsb = true →
      e.fileNameStr = some name →
      fns.findIdx? (fun x => x == name) = some i →
      pstr e.pathId = none →
      find_and_then_and_load d (some (.ok e :: rest)) fns pstr load ig
          = .fatal "Return path is incorrect" ∧
      ∀ er : Error,
        find_and_then_and_load d (some (.ok e :: rest)) fns pstr load ig ≠ .err er := by
  intro d s e rest name i fns pstr load ig hs hex hn hf hp
  have hmain : find_and_then_and_load d (some (.ok e :: rest)) fns pstr load ig
      = .fatal "Return path is incorrect" := by
    unfold find_and_then_and_load
    rw [hs, hex]
    simp only [nameLoop, hn, hf, hp, Bool.not_true, Bool.false_eq_true, if_false]
  refine ⟨hmain, ?_⟩
  intro er h
  rw [hmain] at h
  exact Outcome.noConfusion h

/-- Claim C9 witness: concrete matched entry whose transformed path fails
text conversion. -/
theorem invalid_transform_path_panics_witness :
    find_and_then_and_load ⟨some "/d", true⟩ (some [.ok ⟨some "a", none, 0⟩]) ["a"]
      (fun _ => none) (fun _ => some [7]) false = .fatal "Return path is incorrect" :=
  (invalid_transform_path_panics ⟨some "/d", true⟩ "/d" ⟨some "a", none, 0⟩ [] "a" 0 ["a"]
    (fun _ => none) (fun _ => some [7]) false rfl rfl rfl rfl rfl).1

/-- Claim C10: when the directory path is representable and the directory
exists but read_dir fails, all three operations panic through unwrap,
whatever the ignoreFail flag and the other arguments are. -/
theorem read_dir_failure_panics :
    ∀ (d : PathModel) (s : String) (fns exts : List String)
      (pstr : Nat → Option String) (load : String → Option (List Nat)) (ig : Bool),
      d.toStr = some s → d.existsb = true →
      find_and_then_and_load d none fns pstr load ig = .fatal "read_dir failed" ∧
      find_by_extension_and_then d none exts ig = .fatal "read_dir failed" ∧
      find_and_then d none fns ig = .fatal "read_dir failed" := by
  intro d s fns exts pstr load ig hs he
  unfold find_and_then_and_load find_by_extension_and_then find_by_extension_trace
    find_and_then eraseVal
  rw [hs, he]
  exact ⟨rfl, rfl, rfl⟩

/-- Claim C10 witness: concrete existing directory with a failing listing. -/
theorem read_dir_failure_panics_witness :
    find_and_then ⟨some "/d", true⟩ none ["a"] true = .fatal "read_dir failed" :=
  (read_dir_failure_panics ⟨some "/d", true⟩ "/d" ["a"] [] (fun _ => some "/p")
    (fun _ => some [7]) true rfl rfl).2.2

end FileProcessor
